import Mathlib

/-!
Verification of the page-classification and region-detection core of the
rag-preprocessing-optimizer repository.  Python sources are shallowly
embedded: floating-point quantities are modelled as rationals, machine
integers as naturals, fallible library calls as `Option`/`Except` values.
-/

namespace RagOpt

/-! ## Geometry (src/core/region_based_processor.py) -/

/-- Axis-aligned bounding box `(x0, y0, x1, y1)`, as the 4-tuples used
throughout the Python sources.  Coordinates are rationals standing for the
float coordinates of the source. -/
structure BBox where
  x0 : ℚ
  y0 : ℚ
  x1 : ℚ
  y1 : ℚ
deriving DecidableEq

/-- `RegionBasedProcessor._get_bbox_area`: `abs((x1-x0)*(y1-y0))`. -/
def bboxArea (b : BBox) : ℚ :=
  |(b.x1 - b.x0) * (b.y1 - b.y0)|

/-- `RegionBasedProcessor._merge_bboxes`: componentwise min/max union. -/
def mergeBboxes (a b : BBox) : BBox :=
  ⟨min a.x0 b.x0, min a.y0 b.y0, max a.x1 b.x1, max a.y1 b.y1⟩

/-- `RegionBasedProcessor._do_bboxes_overlap`:
`not (b1[2] < b2[0] or b2[2] < b1[0] or b1[3] < b2[1] or b2[3] < b1[1])`. -/
def bboxesOverlap (a b : BBox) : Bool :=
  !(decide (a.x1 < b.x0) || decide (b.x1 < a.x0) ||
    decide (a.y1 < b.y0) || decide (b.y1 < a.y0))

/-- `RegionBasedProcessor._are_bboxes_close`: the source compares the
Euclidean centre distance `sqrt(dx^2+dy^2) < threshold`; over the rationals
we compare the squares, which is equivalent for a nonnegative threshold. -/
def bboxesClose (a b : BBox) (threshold : ℚ) : Bool :=
  let cx1 := (a.x0 + a.x1) / 2
  let cy1 := (a.y0 + a.y1) / 2
  let cx2 := (b.x0 + b.x1) / 2
  let cy2 := (b.y0 + b.y1) / 2
  decide ((cx1 - cx2) ^ 2 + (cy1 - cy2) ^ 2 < threshold ^ 2)

/-- The `type` field of a `FigureRegion` (`'table' | 'image' | 'figure'`). -/
inductive RType where
  | table
  | image
  | figure
deriving DecidableEq

/-- Dataclass `FigureRegion` of `region_based_processor.py`. -/
structure FigureRegion where
  bbox : BBox
  type : RType
  confidence : ℚ
  page_num : ℕ
  index : ℕ
  caption : Option String := none
deriving DecidableEq

/-- `FigureRegion.area` property: `abs((x1-x0)*(y1-y0))` of the bbox. -/
def FigureRegion.area (r : FigureRegion) : ℚ :=
  bboxArea r.bbox

/-! ## Region merging (`RegionBasedProcessor._merge_overlapping_regions`) -/

/-- Inner loop of `_merge_overlapping_regions`: scan the indexed suffix
`rest` (the regions after seed `r1`), skipping already-consumed indices,
merging into the accumulated bbox every region overlapping `r1.bbox`,
overwriting the accumulated type whenever the absorbed region has
confidence strictly above the seed confidence.  Returns the final bbox,
type and consumed-index set. -/
def mergeScan (r1 : FigureRegion) :
    List (ℕ × FigureRegion) → BBox → RType → List ℕ →
    BBox × RType × List ℕ
  | [], mb, mt, used => (mb, mt, used)
  | (j, r2) :: rest, mb, mt, used =>
    if j ∈ used then
      mergeScan r1 rest mb mt used
    else if bboxesOverlap r1.bbox r2.bbox then
      mergeScan r1 rest (mergeBboxes mb r2.bbox)
        (if r1.confidence < r2.confidence then r2.type else mt) (j :: used)
    else
      mergeScan r1 rest mb mt used

/-- Outer loop of `_merge_overlapping_regions` over the indexed region list;
`k` is `len(merged)` so far (the index assigned to the next output). -/
def mergeOuter : List (ℕ × FigureRegion) → List ℕ → ℕ → List FigureRegion
  | [], _, _ => []
  | (i, r1) :: rest, used, k =>
    if i ∈ used then
      mergeOuter rest used k
    else
      let s := mergeScan r1 rest r1.bbox r1.type used
      { bbox := s.1, type := s.2.1, confidence := r1.confidence,
        page_num := r1.page_num, index := k } :: mergeOuter rest s.2.2 (k + 1)

/-- `RegionBasedProcessor._merge_overlapping_regions`. -/
def mergeOverlappingRegions (regions : List FigureRegion) : List FigureRegion :=
  if regions.length ≤ 1 then regions
  else mergeOuter regions.enum [] 0

/-! ## Vector drawings and figure clustering
(`RegionBasedProcessor._detect_figure_clusters`) -/

/-- Kind tag of a drawing or of one drawing item
(Python `'r' | 'l' | 'c'` plus anything else). -/
inductive DKind where
  | rect
  | line
  | curve
  | other
deriving DecidableEq

/-- A 2D point (PyMuPDF `Point` with float coordinates). -/
structure Point where
  x : ℚ
  y : ℚ
deriving DecidableEq

/-- One item of a drawing: the source reads `item[0]` (the kind tag) and,
for lines and curves, the two points `item[1]`, `item[2]`. -/
structure Item where
  kind : DKind
  p1 : Point
  p2 : Point
deriving DecidableEq

/-- One element of `page.get_drawings()`: the source reads `d.get('type')`
and `d.get('items', [])`. -/
structure Drawing where
  dtype : DKind
  items : List Item
deriving DecidableEq

/-- The per-drawing bbox computation of `_detect_figure_clusters`: skip
drawings with no items; collect the endpoints of line/curve items; if none
remain, skip; otherwise take the enclosing `(min xs, min ys, max xs, max ys)`. -/
def drawingShapeBbox (d : Drawing) : Option BBox :=
  match d.items with
  | [] => none
  | _ :: _ =>
    let pts := d.items.foldr
      (fun it acc =>
        if it.kind = DKind.line ∨ it.kind = DKind.curve then
          it.p1 :: it.p2 :: acc
        else acc) []
    match pts with
    | [] => none
    | p :: ps =>
      some ⟨ps.foldl (fun m q => min m q.x) p.x,
            ps.foldl (fun m q => min m q.y) p.y,
            ps.foldl (fun m q => max m q.x) p.x,
            ps.foldl (fun m q => max m q.y) p.y⟩

/-- Configuration attributes set in `RegionBasedProcessor.__init__`. -/
structure RegionConfig where
  region_margin : ℚ := 10
  min_figure_area : ℚ := 5000
  cluster_threshold : ℚ := 50

/-- The default attribute values of `RegionBasedProcessor.__init__`. -/
def defaultRegionConfig : RegionConfig := {}

/-- The clustering loop of `_detect_figure_clusters`, with the accumulator
`acc` playing the role of the Python `clusters` list:  the running cluster
absorbs the next bbox when the centre distance is below the threshold,
otherwise it is closed (kept only when its area exceeds the minimum) and
the next bbox seeds a new cluster; the final cluster is closed the same way. -/
def clusterLoop (cfg : RegionConfig) :
    BBox → List BBox → List BBox → List BBox
  | cur, [], acc =>
    acc ++ (if cfg.min_figure_area < bboxArea cur then [cur] else [])
  | cur, b :: rest, acc =>
    if bboxesClose cur b cfg.cluster_threshold then
      clusterLoop cfg (mergeBboxes cur b) rest acc
    else
      clusterLoop cfg b rest
        (acc ++ (if cfg.min_figure_area < bboxArea cur then [cur] else []))

/-- `RegionBasedProcessor._detect_figure_clusters`: pages with fewer than 3
drawings are skipped; otherwise the per-drawing bboxes are clustered by the
greedy single pass. -/
def detectFigureClusters (cfg : RegionConfig) (drawings : List Drawing) :
    List BBox :=
  if drawings.length < 3 then []
  else
    match drawings.filterMap drawingShapeBbox with
    | [] => []
    | b :: rest => clusterLoop cfg b rest []

/-- The same greedy walk written as a plain recursion, following the
wording of the specification (running cluster, absorb-or-close).  Used to
state the clustering claim against `detectFigureClusters`. -/
def clusterWalk (cfg : RegionConfig) : BBox → List BBox → List BBox
  | cur, [] => if cfg.min_figure_area < bboxArea cur then [cur] else []
  | cur, b :: rest =>
    if bboxesClose cur b cfg.cluster_threshold then
      clusterWalk cfg (mergeBboxes cur b) rest
    else
      (if cfg.min_figure_area < bboxArea cur then [cur] else []) ++
        clusterWalk cfg b rest

/-- Entry point of the specification-style walk on a list of shape bboxes. -/
def clusterWalkStart (cfg : RegionConfig) : List BBox → List BBox
  | [] => []
  | b :: rest => clusterWalk cfg b rest

/-! ## Region detection (`RegionBasedProcessor.detect_figure_regions`) -/

/-- One result of `page.find_tables()`: the source reads `table.bbox`
(always present) and, in the practical analyzer, `table.cells`, whose
access may fail per table (modelled by `Option`). -/
structure TableG where
  bbox : BBox
  cellsQ : Option ℕ := none
deriving DecidableEq

/-- One entry of `page.get_images(full=True)` together with the outcomes of
the per-image library calls the sources make on it:
`extract_image` (pixel width/height; `none` when the call raises),
`get_image_bbox` (`none` when the call raises or returns an empty, hence
falsy, rectangle), and the `fitz.Pixmap` constructor used by the quick
screening (`pixQ`). -/
structure ImgIn where
  extractQ : Option (ℕ × ℕ) := none
  bboxQ : Option BBox := none
  pixQ : Option (ℕ × ℕ) := none
deriving DecidableEq

/-- `RegionBasedProcessor.detect_figure_regions`: collect table regions
(confidence 0.9), embedded-image regions (confidence 0.95) and figure
clusters (confidence 0.7), each kept only when its area exceeds the
configured minimum; merge overlapping regions; bind captions.  A failing
`find_tables` / `get_images` call (`none`) degrades to no regions of that
kind; `table.bbox` is a tuple and hence always truthy in the source.  The
caption probe reads page text beneath the bbox through the document
library; it is modelled by the oracle `captionOf`. -/
def detectFigureRegions (cfg : RegionConfig) (captionOf : BBox → Option String)
    (tablesQ : Option (List TableG)) (imagesQ : Option (List ImgIn))
    (drawings : List Drawing) (pageNum : ℕ) : List FigureRegion :=
  let tableRegions :=
    match tablesQ with
    | none => []
    | some ts => ts.enum.filterMap fun p =>
        let r : FigureRegion :=
          { bbox := p.2.bbox, type := RType.table, confidence := 9/10,
            page_num := pageNum, index := p.1 }
        if cfg.min_figure_area < r.area then some r else none
  let imageRegions :=
    match imagesQ with
    | none => []
    | some ims => ims.enum.filterMap fun p =>
        match p.2.bboxQ with
        | none => none
        | some b =>
          let r : FigureRegion :=
            { bbox := b, type := RType.image, confidence := 95/100,
              page_num := pageNum, index := p.1 }
          if cfg.min_figure_area < r.area then some r else none
  let clusterRegions :=
    (detectFigureClusters cfg drawings).enum.filterMap fun p =>
      let r : FigureRegion :=
        { bbox := p.2, type := RType.figure, confidence := 7/10,
          page_num := pageNum, index := p.1 }
      if cfg.min_figure_area < r.area then some r else none
  let regions := tableRegions ++ imageRegions ++ clusterRegions
  let merged := mergeOverlappingRegions regions
  merged.map fun r => { r with caption := captionOf r.bbox }

/-! ## Text pattern matching

The sources match a fixed, closed set of regular expressions against page
text (Python `re.search` / the `in` operator).  Each of those patterns is
embedded here as an explicit matcher over `List Char`; a matcher consumes a
prefix and returns the remaining suffix on success.  `\s` is the Python
whitespace class (over `str` it includes the ideographic space), `\d`
includes full-width digits. -/

/-- Python `\s` on `str` input (the whitespace characters relevant here,
including U+3000 ideographic space). -/
def pySpace (c : Char) : Bool :=
  c = ' ' ∨ c = '\t' ∨ c = '\n' ∨ c = '\x0d' ∨ c = '\x0b' ∨ c = '\x0c' ∨
    c = '　'

/-- Python `\d` on `str` input: ASCII or full-width digit. -/
def pyDigit (c : Char) : Bool :=
  c.isDigit ∨ ('０' ≤ c ∧ c ≤ '９')

/-- Match a literal character sequence as a prefix. -/
def matchLit : List Char → List Char → Option (List Char)
  | [], s => some s
  | _ :: _, [] => none
  | c :: cs, d :: ds => if c = d then matchLit cs ds else none

/-- Match `\d+` as a prefix (greedy; the following token in every source
pattern cannot match a digit, so greediness is exact). -/
def matchDigits1 (s : List Char) : Option (List Char) :=
  match s with
  | [] => none
  | c :: rest => if pyDigit c then some (rest.dropWhile pyDigit) else none

/-- Match `[-\.]\d+` as a prefix. -/
def matchSub (s : List Char) : Option (List Char) :=
  match s with
  | [] => none
  | c :: rest => if c = '-' ∨ c = '.' then matchDigits1 rest else none

/-- The figure-number pattern family `LIT\s*\d+` (`sub = false`) or
`LIT\s*\d+[-\.]\d+` (`sub = true`), e.g. `図\s*\d+[-\.]\d+`. -/
def figPat (lit : List Char) (sub : Bool) (s : List Char) :
    Option (List Char) :=
  (matchLit lit s).bind fun s1 =>
    (matchDigits1 (s1.dropWhile pySpace)).bind fun s2 =>
      if sub then matchSub s2 else some s2

/-- `re.search` over a prefix matcher: try the matcher at every suffix. -/
def searchM (m : List Char → Option (List Char)) : List Char → Bool
  | [] => (m []).isSome
  | c :: rest => (m (c :: rest)).isSome || searchM m rest

/-- Search for a boolean position predicate at every suffix. -/
def searchB (f : List Char → Bool) : List Char → Bool
  | [] => f []
  | c :: rest => f (c :: rest) || searchB f rest

/-- Python substring test (`pat in s`). -/
def containsSeq (pat s : List Char) : Bool :=
  searchM (matchLit pat) s

/-- `.*P`: skip any number of non-newline characters, then match `m`
(existence-equivalent to the backtracking search of the source pattern). -/
def dotStar (m : List Char → Option (List Char)) :
    List Char → Option (List Char)
  | [] => m []
  | c :: rest =>
    match m (c :: rest) with
    | some r => some r
    | none => if c = '\n' then none else dotStar m rest

/-- Reference-phrase pattern `図\s*\d+([-\.]\d+)?\s*SUFFIX`
(e.g. `図\s*\d+[-\.]\d+\s*の通り`). -/
def refSuffixPat (sub : Bool) (suffix : List Char) (s : List Char) :
    Option (List Char) :=
  (figPat (("図").toList) sub s).bind fun s1 =>
    matchLit suffix (s1.dropWhile pySpace)

/-- Reference-phrase pattern `LIT図\s*\d+` (e.g. `前述の図\s*\d+`),
where `LIT` ends with the 図 character of the source pattern. -/
def litFigPat (pre : List Char) (s : List Char) : Option (List Char) :=
  (matchLit pre s).bind fun s1 => matchDigits1 (s1.dropWhile pySpace)

/-- `PracticalConfig.figure_number_patterns` (the six defaults, in order). -/
def figureNumberPatterns : List (List Char → Option (List Char)) :=
  [figPat (("図").toList) true,
   figPat (("図").toList) false,
   figPat (("図表").toList) true,
   figPat (("表").toList) true,
   figPat (("Fig.").toList) true,
   figPat (("Figure").toList) true]

/-- The fifteen `reference_patterns` of
`PracticalPageAnalyzer._quick_screening`, in source order. -/
def referencePatterns : List (List Char → Option (List Char)) :=
  [refSuffixPat true (("の通り").toList),
   refSuffixPat true (("を参照").toList),
   refSuffixPat true (("に示す").toList),
   refSuffixPat true (("参照").toList),
   refSuffixPat false (("の通り").toList),
   refSuffixPat false (("を参照").toList),
   fun s => (matchLit (("参考").toList) s).bind
     (dotStar (figPat (("図").toList) false)),
   litFigPat (("前述の図").toList),
   litFigPat (("次の図").toList),
   litFigPat (("上記の図").toList),
   litFigPat (("下記の図").toList),
   refSuffixPat true (("より").toList),
   refSuffixPat true (("から").toList),
   refSuffixPat true (("で示").toList),
   litFigPat (("については図").toList)]

/-- `any(re.search(p, text) ...)` over a pattern list (the Python
pattern loops with `break` on the first hit). -/
def anySearch (pats : List (List Char → Option (List Char)))
    (text : List Char) : Bool :=
  pats.any fun m => searchM m text

/-- `any(re.search(p, text) ...)` over the reference-phrase patterns. -/
def hasFigureReferenceText (text : List Char) : Bool :=
  anySearch referencePatterns text

/-- The suffixes of `text` that start a line: the whole text plus every
suffix following a newline — the positions at which `(?:^|\n)` can place a
match under `re.MULTILINE`. -/
def lineStartsAux : List Char → List (List Char)
  | [] => []
  | c :: rest => (if c = '\n' then [rest] else []) ++ lineStartsAux rest

/-- All line-start suffixes of a text. -/
def lineStarts (s : List Char) : List (List Char) :=
  s :: lineStartsAux s

/-- Tail test for `\s*(?:\n|$)`: some run of whitespace followed by a
newline or the end of the text. -/
def wsThenNLOrEnd : List Char → Bool
  | [] => true
  | c :: rest => c = '\n' || (pySpace c && wsThenNLOrEnd rest)

/-- Caption-position template 1 at a line start:
`(?:^|\n)\s*P[\s　:]` — the pattern, then a whitespace or colon. -/
def posLineHead (p : List Char → Option (List Char)) (t : List Char) :
    Bool :=
  match p (t.dropWhile pySpace) with
  | none => false
  | some rest =>
    match rest with
    | [] => false
    | c :: _ => pySpace c || c = ':'

/-- Caption-position template 2 at a line start:
`(?:^|\n)\s*P\s*(?:\n|$)` — the pattern alone on its line. -/
def posOwnLine (p : List Char → Option (List Char)) (t : List Char) :
    Bool :=
  match p (t.dropWhile pySpace) with
  | none => false
  | some rest => wsThenNLOrEnd rest

/-- Caption-position template 3 at a line start:
`(?:^|\n)\s{3,}P(?:\s|$)` — the pattern indented by at least three
whitespace characters. -/
def posIndented (p : List Char → Option (List Char)) (t : List Char) :
    Bool :=
  match t with
  | c1 :: c2 :: c3 :: rest =>
    pySpace c1 && pySpace c2 && pySpace c3 &&
      (match p (rest.dropWhile pySpace) with
       | none => false
       | some r =>
         match r with
         | [] => true
         | c :: _ => pySpace c)
  | _ => false

/-- The positional actual-caption test of `_quick_screening`: some
figure-number pattern matches at a line start (followed by
whitespace/colon), on its own line, or indented. -/
def positionalCaptionMatch (pats : List (List Char → Option (List Char)))
    (text : List Char) : Bool :=
  pats.any fun p =>
    (lineStarts text).any (posLineHead p) ||
    (lineStarts text).any (posOwnLine p) ||
    (lineStarts text).any (posIndented p)

/-! ## Unified figure detector (src/core/unified_figure_detector.py) -/

/-- Enum `FigureType`. -/
inductive FigureType where
  | flowchart
  | table
  | diagram
  | embedded_image
  | complex_layout
  | text_only
deriving DecidableEq

/-- The `complexity` field values (`'simple' | 'medium' | 'complex'`). -/
inductive Cx where
  | simple
  | medium
  | complex
deriving DecidableEq

/-- A value of the heterogeneous `details` mapping: either a count or a
list of `(width, height)` pairs. -/
inductive DVal where
  | num (n : ℕ)
  | dims (l : List (ℕ × ℕ))
deriving DecidableEq

/-- Dataclass `DetectionResult`. -/
structure DetectionResult where
  type : FigureType
  confidence : ℚ
  details : List (String × DVal)
  reasons : List String
  complexity : Cx
deriving DecidableEq

/-- Dataclass `FigureDetectionResult`.  `processing_time` is filled from
the wall clock by `detect_once` and is not modelled (kept 0). -/
structure FigureDetectionResult where
  has_figure : Bool
  has_table : Bool
  has_flowchart : Bool
  has_embedded_image : Bool
  has_diagram : Bool
  primary_type : FigureType
  confidence : ℚ
  complexity : Cx
  details : List (String × DVal)
  reasons : List String
  processing_time : ℚ := 0
deriving DecidableEq

/-- The configuration keys the detector plugins read via
`config.get(key, default)`, with their defaults. -/
structure UnifiedConfig where
  min_arrows_for_flowchart : ℕ := 2
  embedded_image_min_size : ℕ := 100
  min_combined_shapes : ℕ := 8

/-- The page-data snapshot built by
`UnifiedFigureDetector._build_page_cache` (text, drawings, tables, and
`(width, height)` metadata of the extractable embedded images). -/
structure PageCache where
  text : List Char
  drawings : List Drawing
  tables : List TableG
  images : List (ℕ × ℕ)

/-- `FlowchartDetector` keyword list. -/
def flowchartKeywords : List (List Char) :=
  [("フローチャート").toList, ("フロー図").toList, ("START").toList,
   ("END").toList, ("判定").toList, ("分岐").toList]

/-- `FlowchartDetector._detect_arrows`: `len(lines) // 3 if lines else 0`
over the line-type drawings. -/
def detectArrows (drawings : List Drawing) : ℕ :=
  (drawings.filter fun d => d.dtype = DKind.line).length / 3

/-- `FlowchartDetector.detect`: fires iff at least `min_rects = 3`
rectangles and at least the configured minimum of estimated arrows;
confidence `min(0.6 + 0.1*arrows + 0.05*keywords, 1.0)`; complexity
`complex` when more than 5 arrows, else `medium`. -/
def flowchartDetect (cfg : UnifiedConfig) (pd : PageCache) :
    Option DetectionResult :=
  let rect_count := (pd.drawings.filter fun d => d.dtype = DKind.rect).length
  let arrow_count := detectArrows pd.drawings
  let keyword_matches :=
    (flowchartKeywords.filter fun kw => containsSeq kw pd.text).length
  if 3 ≤ rect_count ∧ cfg.min_arrows_for_flowchart ≤ arrow_count then
    some { type := FigureType.flowchart,
           confidence :=
             min (6/10 + (arrow_count : ℚ) * (1/10) +
               (keyword_matches : ℚ) * (5/100)) 1,
           details := [("rectangles", DVal.num rect_count),
                       ("arrows", DVal.num arrow_count),
                       ("keywords", DVal.num keyword_matches)],
           reasons := [("フローチャート検出: 矩形") ++ toString rect_count ++
             ("個, 矢印") ++ toString arrow_count ++ ("個")],
           complexity := if 5 < arrow_count then Cx.complex else Cx.medium }
  else none

/-- `TableDetector.detect`: fires iff at least one table; confidence 0.9;
complexity `simple` for exactly one table, else `medium`. -/
def tableDetect (pd : PageCache) : Option DetectionResult :=
  if pd.tables.length > 0 then
    some { type := FigureType.table,
           confidence := 9/10,
           details := [("table_count", DVal.num pd.tables.length)],
           reasons := [("テーブルを") ++ toString pd.tables.length ++
             ("個検出")],
           complexity := if pd.tables.length = 1 then Cx.simple
             else Cx.medium }
  else none

/-- `EmbeddedImageDetector.detect`: keeps images with both dimensions
strictly above the configured minimum size; fires iff some remain. -/
def embeddedImageDetect (cfg : UnifiedConfig) (pd : PageCache) :
    Option DetectionResult :=
  let significant := pd.images.filter fun wh =>
    cfg.embedded_image_min_size < wh.1 ∧ cfg.embedded_image_min_size < wh.2
  if significant ≠ [] then
    some { type := FigureType.embedded_image,
           confidence := 95/100,
           details := [("image_count", DVal.num significant.length),
                       ("sizes", DVal.dims significant)],
           reasons := [("埋め込み画像を") ++ toString significant.length ++
             ("個検出")],
           complexity := Cx.medium }
  else none

/-- `DiagramDetector.detect`: fires iff the combined rectangle/line/curve
count reaches the configured minimum; confidence
`min(0.4 + 0.02*total, 0.8)`; complexity `complex` when more than 20
shapes, else `medium`. -/
def diagramDetect (cfg : UnifiedConfig) (pd : PageCache) :
    Option DetectionResult :=
  let rect_count := (pd.drawings.filter fun d => d.dtype = DKind.rect).length
  let line_count := (pd.drawings.filter fun d => d.dtype = DKind.line).length
  let curve_count := (pd.drawings.filter fun d => d.dtype = DKind.curve).length
  let total_shapes := rect_count + line_count + curve_count
  if cfg.min_combined_shapes ≤ total_shapes then
    some { type := FigureType.diagram,
           confidence := min (4/10 + (total_shapes : ℚ) * (2/100)) (8/10),
           details := [("total_shapes", DVal.num total_shapes),
                       ("rectangles", DVal.num rect_count),
                       ("lines", DVal.num line_count),
                       ("curves", DVal.num curve_count)],
           reasons := [("ダイアグラム検出: 総要素数") ++
             toString total_shapes],
           complexity := if 20 < total_shapes then Cx.complex
             else Cx.medium }
  else none

/-- The initial `FigureDetectionResult` of
`UnifiedFigureDetector._integrate_results`. -/
def initIntegrated : FigureDetectionResult :=
  { has_figure := false, has_table := false, has_flowchart := false,
    has_embedded_image := false, has_diagram := false,
    primary_type := FigureType.text_only, confidence := 0,
    complexity := Cx.simple, details := [], reasons := [],
    processing_time := 0 }

/-- One iteration of the `_integrate_results` loop: set the boolean flags
for the candidate type, keep the strictly-highest-confidence candidate
seen so far (`result.confidence > max_confidence`), append its reasons. -/
def integrateStep
    (acc : FigureDetectionResult × ℚ × Option DetectionResult)
    (r : DetectionResult) :
    FigureDetectionResult × ℚ × Option DetectionResult :=
  let flagged :=
    match r.type with
    | FigureType.table => { acc.1 with has_table := true }
    | FigureType.flowchart =>
        { acc.1 with has_flowchart := true, has_figure := true }
    | FigureType.embedded_image =>
        { acc.1 with has_embedded_image := true, has_figure := true }
    | FigureType.diagram =>
        { acc.1 with has_diagram := true, has_figure := true }
    | _ => acc.1
  let withReasons := { flagged with reasons := flagged.reasons ++ r.reasons }
  if acc.2.1 < r.confidence then (withReasons, r.confidence, some r)
  else (withReasons, acc.2.1, acc.2.2)

/-- `UnifiedFigureDetector._integrate_results` over the candidate results
in the order the collection loop of `detect_once` yields them. -/
def integrateResults (results : List DetectionResult) :
    FigureDetectionResult :=
  let s := results.foldl integrateStep (initIntegrated, 0, none)
  match s.2.2 with
  | some p =>
    { s.1 with primary_type := p.type, confidence := p.confidence,
               complexity := p.complexity, details := p.details }
  | none => s.1

/-- The detector registry of `UnifiedFigureDetector.__init__`, in
registration (insertion) order: flowchart, table, embedded_image,
diagram. -/
def registeredDetectors (cfg : UnifiedConfig) :
    List (PageCache → Option DetectionResult) :=
  [flowchartDetect cfg, tableDetect, embeddedImageDetect cfg,
   diagramDetect cfg]

/-- The result-collection loop of `detect_once`: the futures dict is built
and read back in registration order (`dict` preserves insertion order and
`future.result()` blocks), so the candidate list is in registration order
regardless of completion order; detectors that return `None` (or fail)
contribute nothing. -/
def collectCandidates (cfg : UnifiedConfig) (pd : PageCache) :
    List DetectionResult :=
  (registeredDetectors cfg).filterMap fun d => d pd

/-- `UnifiedFigureDetector.detect_once` (minus the wall-clock timing):
build the candidate list and integrate it. -/
def detectOnce (cfg : UnifiedConfig) (pd : PageCache) :
    FigureDetectionResult :=
  integrateResults (collectCandidates cfg pd)

/-- The outcomes of the document-library calls made by
`UnifiedFigureDetector._build_page_cache`; `Except.error` models a raised
exception.  The inner list of `imagesQ` carries the per-image
`extract_image` outcomes. -/
structure PageQueries where
  textQ : Except Unit (List Char)
  drawingsQ : Except Unit (List Drawing)
  tablesQ : Except Unit (List TableG)
  imagesQ : Except Unit (List (Except Unit (ℕ × ℕ)))

/-- `UnifiedFigureDetector._build_page_cache`: the cache dict is created
with `'text': page.get_text()` outside any `try`, so a failing text query
propagates; the drawings, tables and per-image queries are each guarded
and degrade to empty. -/
def buildPageCache (q : PageQueries) : Except Unit PageCache :=
  match q.textQ with
  | Except.error e => Except.error e
  | Except.ok t =>
    Except.ok
      { text := t,
        drawings := match q.drawingsQ with
          | Except.ok ds => ds
          | Except.error _ => [],
        tables := match q.tablesQ with
          | Except.ok ts => ts
          | Except.error _ => [],
        images := match q.imagesQ with
          | Except.error _ => []
          | Except.ok l => l.filterMap fun x =>
              match x with
              | Except.ok wh => some wh
              | Except.error _ => none }

/-! ## Practical analyzer (src/core/practical_optimizer.py) -/

/-- Enum `PageType`. -/
inductive PageType where
  | pure_text
  | simple_table
  | complex_table
  | flowchart
  | diagram
  | mixed
deriving DecidableEq

/-- Enum `ProcessingMethod`. -/
inductive ProcessingMethod where
  | text_only
  | structured_extraction
  | image_with_gemini
  | image_with_analysis
  | hybrid
deriving DecidableEq

/-- The default `force_image_keywords` of `PracticalConfig`. -/
def defaultForceImageKeywords : List (List Char) :=
  [("フロー図").toList, ("ブロック図").toList, ("配線図").toList,
   ("回路図").toList]

/-- The fields of dataclass `PracticalConfig` used by the analyzer, with
the `__post_init__` defaults. -/
structure PracticalConfig where
  quick_text_density_threshold : ℚ := 8/10
  quick_image_size_threshold : ℕ := 50000
  min_table_cells : ℕ := 6
  min_flow_nodes : ℕ := 3
  complex_table_cell_threshold : ℕ := 20
  force_image_keywords : List (List Char) := defaultForceImageKeywords
  skip_page_patterns : List (List Char) := []
  figure_number_patterns : List (List Char → Option (List Char)) :=
    figureNumberPatterns

/-- The default `PracticalConfig`. -/
def defaultPracticalConfig : PracticalConfig := {}

/-- One block of `page.get_text("dict")`: its bbox and its type tag
(0 = text block). -/
structure TextBlock where
  bbox : BBox
  btype : ℕ
deriving DecidableEq

/-- The per-page raw signals the practical analyzer queries: full text,
page rectangle, text-dict blocks, embedded images (with the per-image
Pixmap / extract_image outcomes), tables (`none` when `find_tables`
raises) and drawings. -/
structure PracticalPage where
  text : List Char
  pageW : ℚ
  pageH : ℚ
  blocks : List TextBlock
  images : List ImgIn
  tablesQ : Option (List TableG)
  drawings : List Drawing

/-- The `features` dict produced by `_quick_screening`. -/
structure QuickFeatures where
  text_density : ℚ := 0
  large_images_count : ℕ := 0
  has_force_keywords : Bool := false
  has_figure_number : Bool := false
  has_figure_reference : Bool := false
  actual_figure : Bool := false
deriving DecidableEq

/-- The result dict of `_quick_screening`.  The skip branch of the source
returns only `skip`/`reason`; the remaining fields then keep their
defaults and are never read by the caller. -/
structure QuickResult where
  skip : Bool := false
  is_pure_text : Bool := false
  confidence : ℚ := 0
  features : QuickFeatures := {}
deriving DecidableEq

/-- `PracticalPageAnalyzer._quick_screening`: skip-pattern check against
the first 200 characters; text density from the type-0 block areas over
the page area; count of images whose pixmap area exceeds the quick
threshold; forced keywords; reference-vs-caption classification of
figure-number matches; the pure-text verdict and its confidence. -/
def quickScreening (cfg : PracticalConfig) (page : PracticalPage) :
    QuickResult :=
  let text := page.text
  let page_area := page.pageW * page.pageH
  if cfg.skip_page_patterns.any (fun p => containsSeq p (text.take 200)) then
    { skip := true }
  else
    let text_area := (page.blocks.filter fun b => b.btype = 0).foldl
      (fun s b => s + bboxArea b.bbox) 0
    let text_density := if 0 < page_area then text_area / page_area else 0
    let large_images_count :=
      ((page.images.filterMap fun im => im.pixQ).filter fun wh =>
        cfg.quick_image_size_threshold < wh.1 * wh.2).length
    let has_force_keywords :=
      cfg.force_image_keywords.any fun kw => containsSeq kw text
    let has_figure_reference := anySearch referencePatterns text
    let has_figure_number := anySearch cfg.figure_number_patterns text
    let actual_figure :=
      if has_figure_number && !has_figure_reference then
        positionalCaptionMatch cfg.figure_number_patterns text
      else false
    let is_pure_text :=
      decide (cfg.quick_text_density_threshold < text_density) &&
        decide (large_images_count = 0) &&
        !has_force_keywords && !actual_figure
    { skip := false,
      is_pure_text := is_pure_text,
      confidence := if is_pure_text then 9/10 else 5/10,
      features :=
        { text_density := text_density,
          large_images_count := large_images_count,
          has_force_keywords := has_force_keywords,
          has_figure_number := has_figure_number,
          has_figure_reference := has_figure_reference,
          actual_figure := actual_figure } }

/-- The result dict of `_detailed_analysis` (`table_info` is kept as the
list of successfully-read cell counts). -/
structure DetailedResult where
  table_info : List ℕ
  table_count : ℕ
  total_cells : ℕ
  rect_count : ℕ
  line_count : ℕ
  curve_count : ℕ
  arrow_patterns : ℕ
  has_step_pattern : Bool
  has_number_list : Bool
  has_arrow_text : Bool
  has_visual_element : Bool
  significant_images : ℕ
deriving DecidableEq

/-- Character class `[0-9０-９①-⑩]` of the step pattern. -/
def stepDigit (c : Char) : Bool :=
  c.isDigit ∨ ('０' ≤ c ∧ c ≤ '９') ∨ ('①' ≤ c ∧ c ≤ '⑩')

/-- The step-pattern literals `(STEP|ステップ|手順|Phase|フェーズ|工程)`. -/
def stepLits : List (List Char) :=
  [("STEP").toList, ("ステップ").toList, ("手順").toList,
   ("Phase").toList, ("フェーズ").toList, ("工程").toList]

/-- Position test for `(STEP|ステップ|手順|Phase|フェーズ|工程)\s*[0-9０-９①-⑩]`. -/
def stepMatchAt (s : List Char) : Bool :=
  stepLits.any fun lit =>
    match matchLit lit s with
    | none => false
    | some s1 =>
      match s1.dropWhile pySpace with
      | [] => false
      | c :: _ => stepDigit c

/-- Position test for `[①-⑩]|[1-9]\.\s`. -/
def numberListAt (s : List Char) : Bool :=
  match s with
  | [] => false
  | c :: rest =>
    (decide ('①' ≤ c) && decide (c ≤ '⑩')) ||
      (decide ('1' ≤ c) && decide (c ≤ '9') &&
        match rest with
        | '.' :: c2 :: _ => pySpace c2
        | _ => false)

/-- The arrow characters of the `has_arrow_text` pattern. -/
def arrowChars : List Char :=
  ['→', '←', '↑', '↓', '⇒', '⇐', '⇑', '⇓', '➡', '⬅', '⬆', '⬇']

/-- `PracticalPageAnalyzer._detailed_analysis`. -/
def detailedAnalysis (page : PracticalPage) : DetailedResult :=
  let table_info := match page.tablesQ with
    | none => []
    | some ts => ts.filterMap fun t => t.cellsQ
  let table_count := match page.tablesQ with
    | none => 0
    | some ts => ts.length
  let rect_count :=
    (page.drawings.filter fun d => d.dtype = DKind.rect).length
  let line_count :=
    (page.drawings.filter fun d => d.dtype = DKind.line).length
  let curve_count :=
    (page.drawings.filter fun d => d.dtype = DKind.curve).length
  let arrow_patterns :=
    (page.drawings.filter fun d => 2 < d.items.length).length
  let significant_images :=
    ((page.images.filterMap fun im => im.extractQ).filter fun wh =>
      100 < wh.1 ∧ 100 < wh.2).length
  let has_visual_element :=
    decide (0 < rect_count) || decide (0 < line_count) ||
      decide (0 < table_count) || decide (0 < significant_images)
  { table_info := table_info,
    table_count := table_count,
    total_cells := table_info.foldl (· + ·) 0,
    rect_count := rect_count,
    line_count := line_count,
    curve_count := curve_count,
    arrow_patterns := arrow_patterns,
    has_step_pattern := searchB stepMatchAt page.text,
    has_number_list := searchB numberListAt page.text,
    has_arrow_text := 3 ≤ page.text.countP (· ∈ arrowChars),
    has_visual_element := has_visual_element,
    significant_images := significant_images }

/-- `PracticalPageAnalyzer._determine_processing`: the staged decision over
the quick-screening features and the detailed analysis, in source order. -/
def determineProcessing (cfg : PracticalConfig) (quick : QuickResult)
    (detailed : DetailedResult) : PageType × ProcessingMethod × ℚ :=
  let features := quick.features
  if !detailed.has_visual_element && features.has_figure_number then
    (PageType.pure_text, ProcessingMethod.text_only, 9/10)
  else if features.actual_figure && detailed.has_visual_element then
    if 0 < detailed.table_count then
      (PageType.complex_table, ProcessingMethod.image_with_gemini, 85/100)
    else if 0 < detailed.rect_count ∨ 0 < features.large_images_count then
      (PageType.flowchart, ProcessingMethod.image_with_analysis, 8/10)
    else
      (PageType.diagram, ProcessingMethod.image_with_analysis, 75/100)
  else if (7:ℚ)/10 < features.text_density ∧ detailed.table_count = 0 ∧
      detailed.rect_count < 2 then
    (PageType.pure_text, ProcessingMethod.text_only, 9/10)
  else if 0 < detailed.table_count then
    if cfg.complex_table_cell_threshold < detailed.total_cells then
      (PageType.complex_table, ProcessingMethod.image_with_gemini, 85/100)
    else
      (PageType.simple_table, ProcessingMethod.structured_extraction, 8/10)
  else if cfg.min_flow_nodes ≤ detailed.rect_count ∧
      (detailed.has_step_pattern ∨ 5 < detailed.line_count) then
    (PageType.flowchart, ProcessingMethod.image_with_analysis, 75/100)
  else if 0 < features.large_images_count then
    (PageType.diagram, ProcessingMethod.image_with_analysis, 8/10)
  else if 0 < detailed.rect_count ∨ 10 < detailed.line_count then
    (PageType.mixed, ProcessingMethod.hybrid, 6/10)
  else
    (PageType.pure_text, ProcessingMethod.text_only, 5/10)

/-- The analysis dict returned by `PracticalPageAnalyzer.analyze_page`
(the fields every branch sets). -/
structure AnalysisResult where
  page_type : PageType
  processing_method : ProcessingMethod
  confidence : ℚ
  skip : Bool
deriving DecidableEq

/-- `PracticalPageAnalyzer.analyze_page`: quick screening first (skip and
pure-text short circuits), then detailed analysis and the staged
decision. -/
def analyzePage (cfg : PracticalConfig) (page : PracticalPage) :
    AnalysisResult :=
  let quick := quickScreening cfg page
  if quick.skip then
    { page_type := PageType.pure_text,
      processing_method := ProcessingMethod.text_only,
      confidence := 1, skip := true }
  else if quick.is_pure_text then
    { page_type := PageType.pure_text,
      processing_method := ProcessingMethod.text_only,
      confidence := quick.confidence, skip := false }
  else
    let detailed := detailedAnalysis page
    let d := determineProcessing cfg quick detailed
    { page_type := d.1, processing_method := d.2.1,
      confidence := d.2.2, skip := false }

/-! ## Hybrid processor (src/core/hybrid_processor.py) -/

/-- Dataclass `PageProcessingDecision` (`method` is one of the strings
`'text_only' | 'extract_images' | 'full_page' | 'hybrid'`). -/
structure PageProcessingDecision where
  method : String
  embedded_images : List FigureRegion
  has_tables : Bool
  has_figures : Bool
  confidence : ℚ
  reason : String
deriving DecidableEq

/-- `HybridProcessor._detect_embedded_images`: keep each image whose
`extract_image` metadata succeeds with both pixel dimensions strictly
above 100 and whose `get_image_bbox` succeeds with a truthy rectangle;
no area filter is applied here. -/
def detectEmbeddedImages (images : List ImgIn) (pageNum : ℕ) :
    List FigureRegion :=
  images.enum.filterMap fun p =>
    match p.2.extractQ with
    | none => none
    | some wh =>
      if 100 < wh.1 ∧ 100 < wh.2 then
        match p.2.bboxQ with
        | none => none
        | some b =>
          some { bbox := b, type := RType.image, confidence := 95/100,
                 page_num := pageNum, index := p.1 }
      else none

/-- The `figure_keywords` regex list of
`HybridProcessor.analyze_page_content`, in source order. -/
def figureKeywordMatchers : List (List Char → Option (List Char)) :=
  [figPat (("図").toList) false,
   matchLit (("フロー").toList),
   matchLit (("チャート").toList),
   matchLit (("ブロック図").toList),
   matchLit (("Fig.").toList),
   matchLit (("Figure").toList),
   figPat (("表").toList) false,
   matchLit (("Table").toList),
   matchLit (("グラフ").toList),
   matchLit (("ダイアグラム").toList),
   matchLit (("配線図").toList),
   matchLit (("回路図").toList)]

/-- `any(re.search(kw, text) for kw in figure_keywords)`. -/
def hasFigureKeywordText (text : List Char) : Bool :=
  anySearch figureKeywordMatchers text

/-- `HybridProcessor.analyze_page_content`: detect embedded images, tables
(a failing `find_tables` degrades to no tables), keyword-based figure
evidence, then the four-way method decision. -/
def analyzePageContent (images : List ImgIn)
    (tablesQ : Option (List TableG)) (text : List Char) (pageNum : ℕ) :
    PageProcessingDecision :=
  let embedded := detectEmbeddedImages images pageNum
  let has_tables := match tablesQ with
    | some ts => decide (0 < ts.length)
    | none => false
  let has_figures := hasFigureKeywordText text
  if embedded = [] && !has_tables && !has_figures then
    { method := "text_only", embedded_images := embedded,
      has_tables := has_tables, has_figures := has_figures,
      confidence := 95/100, reason := "テキストのみのページ" }
  else if embedded ≠ [] && !has_tables && !has_figures then
    { method := "extract_images", embedded_images := embedded,
      has_tables := has_tables, has_figures := has_figures,
      confidence := 9/10,
      reason := toString embedded.length ++ ("個の埋め込み画像を個別抽出") }
  else if (has_tables || has_figures) && embedded = [] then
    { method := "full_page", embedded_images := embedded,
      has_tables := has_tables, has_figures := has_figures,
      confidence := 85/100,
      reason := "表・フローチャート・図形を含むため全体画像化" }
  else
    { method := "hybrid", embedded_images := embedded,
      has_tables := has_tables, has_figures := has_figures,
      confidence := 8/10, reason := "画像は個別抽出、ページ全体も画像化" }

/-! ## Specification-side definitions used to state the claims -/

/-- The four-row decision table of the specification, over
(has_embedded_image, has_table-or-figure). -/
def methodTable (hasEmbedded hasTableOrFigure : Bool) : String :=
  match hasEmbedded, hasTableOrFigure with
  | false, false => "text_only"
  | true, false => "extract_images"
  | false, true => "full_page"
  | true, true => "hybrid"

/-- Reindexing pass: the shape of the output of the merge loop, with
positional indices from `k` on and cleared captions. -/
def canonFrom : ℕ → List FigureRegion → List FigureRegion
  | _, [] => []
  | k, r :: rest =>
    { r with index := k, caption := none } :: canonFrom (k + 1) rest

/-- Invariant of the running merged bbox relative to the seed bbox: it is
either still the seed bbox, or it sandwiches both seed x-coordinates
within its x-extent and both seed y-coordinates within its y-extent. -/
def accInv (base acc : BBox) : Prop :=
  acc = base ∨
    (acc.x0 ≤ base.x0 ∧ acc.x0 ≤ base.x1 ∧ base.x0 ≤ acc.x1 ∧
     base.x1 ≤ acc.x1 ∧ acc.y0 ≤ base.y0 ∧ acc.y0 ≤ base.y1 ∧
     base.y0 ≤ acc.y1 ∧ base.y1 ≤ acc.y1)

/-! ## Helper lemmas -/

/-- The accumulator form of the clustering loop equals the plain
greedy-walk recursion. -/
lemma clusterLoop_eq_walk (cfg : RegionConfig) (rest : List BBox) :
    ∀ cur acc, clusterLoop cfg cur rest acc = acc ++ clusterWalk cfg cur rest := by
  induction rest with
  | nil => intro cur acc; simp [clusterLoop, clusterWalk]
  | cons b rest ih =>
    intro cur acc
    simp only [clusterLoop, clusterWalk]
    cases h : bboxesClose cur b cfg.cluster_threshold
    · simp only [h, Bool.false_eq_true, if_false]
      rw [ih b, List.append_assoc]
    · simp only [h, if_true]
      exact ih (mergeBboxes cur b) acc

/-- One integration step sets each boolean flag exactly for its
candidate type. -/
lemma step_fst_flags (acc : FigureDetectionResult × ℚ × Option DetectionResult)
    (r : DetectionResult) :
    ((integrateStep acc r).1).has_table
        = (acc.1.has_table || decide (r.type = FigureType.table)) ∧
    ((integrateStep acc r).1).has_flowchart
        = (acc.1.has_flowchart || decide (r.type = FigureType.flowchart)) ∧
    ((integrateStep acc r).1).has_embedded_image
        = (acc.1.has_embedded_image
            || decide (r.type = FigureType.embedded_image)) ∧
    ((integrateStep acc r).1).has_diagram
        = (acc.1.has_diagram || decide (r.type = FigureType.diagram)) ∧
    ((integrateStep acc r).1).has_figure
        = (acc.1.has_figure || decide (r.type = FigureType.flowchart)
            || decide (r.type = FigureType.embedded_image)
            || decide (r.type = FigureType.diagram)) := by
  unfold integrateStep
  dsimp only
  split <;> cases hr : r.type <;> simp [hr]

/-- The boolean flags of the integration fold are the disjunctions of the
per-candidate type tests. -/
lemma foldl_flags (cs : List DetectionResult) :
    ∀ acc : FigureDetectionResult × ℚ × Option DetectionResult,
    (((cs.foldl integrateStep acc).1).has_table
        = (acc.1.has_table
            || cs.any fun r => decide (r.type = FigureType.table))) ∧
    (((cs.foldl integrateStep acc).1).has_flowchart
        = (acc.1.has_flowchart
            || cs.any fun r => decide (r.type = FigureType.flowchart))) ∧
    (((cs.foldl integrateStep acc).1).has_embedded_image
        = (acc.1.has_embedded_image
            || cs.any fun r => decide (r.type = FigureType.embedded_image))) ∧
    (((cs.foldl integrateStep acc).1).has_diagram
        = (acc.1.has_diagram
            || cs.any fun r => decide (r.type = FigureType.diagram))) ∧
    (((cs.foldl integrateStep acc).1).has_figure
        = (acc.1.has_figure || cs.any fun r =>
            (decide (r.type = FigureType.flowchart)
              || decide (r.type = FigureType.embedded_image)
              || decide (r.type = FigureType.diagram)))) := by
  induction cs with
  | nil => intro acc; simp
  | cons r rs ih =>
    intro acc
    simp only [List.foldl_cons, List.any_cons]
    obtain ⟨h1, h2, h3, h4, h5⟩ := ih (integrateStep acc r)
    obtain ⟨g1, g2, g3, g4, g5⟩ := step_fst_flags acc r
    refine ⟨?_, ?_, ?_, ?_, ?_⟩ <;>
      simp [h1, h2, h3, h4, h5, g1, g2, g3, g4, g5, Bool.or_assoc]

/-- The (max-confidence, primary) pair of one integration step. -/
lemma step_snd (acc : FigureDetectionResult × ℚ × Option DetectionResult)
    (r : DetectionResult) :
    (integrateStep acc r).2 =
      if acc.2.1 < r.confidence then (r.confidence, some r) else acc.2 := by
  unfold integrateStep
  dsimp only
  split <;> rfl

/-- Candidates at or below the running maximum never change the
(max, primary) pair. -/
lemma foldl_snd_le (cs : List DetectionResult) :
    ∀ acc, (∀ r ∈ cs, r.confidence ≤ acc.2.1) →
      (cs.foldl integrateStep acc).2 = acc.2 := by
  induction cs with
  | nil => intro acc _; rfl
  | cons r rs ih =>
    intro acc h
    have hr : ¬ acc.2.1 < r.confidence := not_lt.mpr (h r (by simp))
    have hstep : (integrateStep acc r).2 = acc.2 := by rw [step_snd, if_neg hr]
    rw [List.foldl_cons, ih (integrateStep acc r) ?_, hstep]
    intro x hx
    rw [hstep]
    exact h x (by simp [hx])

/-- The running maximum stays below any strict bound on the candidates. -/
lemma foldl_snd_lt (cs : List DetectionResult) :
    ∀ acc (q : ℚ), acc.2.1 < q → (∀ r ∈ cs, r.confidence < q) →
      (cs.foldl integrateStep acc).2.1 < q := by
  induction cs with
  | nil => intro acc q hacc _; exact hacc
  | cons r rs ih =>
    intro acc q hacc h
    rw [List.foldl_cons]
    apply ih (integrateStep acc r) q ?_ (fun x hx => h x (by simp [hx]))
    rw [step_snd]
    split
    · exact h r (by simp)
    · exact hacc

/-- If a candidate strictly dominates everything before it and is not
strictly exceeded after it, it becomes the primary candidate and supplies
the primary type, confidence and complexity of the fused result. -/
lemma integrate_first_max (pre post : List DetectionResult)
    (c : DetectionResult) (hc : 0 < c.confidence)
    (hpre : ∀ p ∈ pre, p.confidence < c.confidence)
    (hpost : ∀ q ∈ post, q.confidence ≤ c.confidence) :
    (integrateResults (pre ++ c :: post)).primary_type = c.type ∧
    (integrateResults (pre ++ c :: post)).confidence = c.confidence ∧
    (integrateResults (pre ++ c :: post)).complexity = c.complexity := by
  unfold integrateResults
  dsimp only
  rw [List.foldl_append, List.foldl_cons]
  have hlt : (pre.foldl integrateStep (initIntegrated, 0, none)).2.1
      < c.confidence :=
    foldl_snd_lt pre (initIntegrated, 0, none) c.confidence hc hpre
  have hstep :
      (integrateStep (pre.foldl integrateStep (initIntegrated, 0, none)) c).2
        = (c.confidence, some c) := by
    rw [step_snd, if_pos hlt]
  have hrest :
      (post.foldl integrateStep
        (integrateStep (pre.foldl integrateStep (initIntegrated, 0, none)) c)).2
        = (c.confidence, some c) := by
    rw [foldl_snd_le post _ ?_, hstep]
    intro x hx
    rw [hstep]
    exact hpost x hx
  have hsome :
      (post.foldl integrateStep
        (integrateStep (pre.foldl integrateStep (initIntegrated, 0, none)) c)).2.2
        = some c := congrArg Prod.snd hrest
  rw [hsome]
  dsimp only
  exact ⟨rfl, rfl, rfl⟩

/-- The fused boolean flags are the per-type disjunctions over the
candidate list. -/
lemma integrateResults_flags (cs : List DetectionResult) :
    ((integrateResults cs).has_table
        = (cs.any fun r => decide (r.type = FigureType.table))) ∧
    ((integrateResults cs).has_flowchart
        = (cs.any fun r => decide (r.type = FigureType.flowchart))) ∧
    ((integrateResults cs).has_embedded_image
        = (cs.any fun r => decide (r.type = FigureType.embedded_image))) ∧
    ((integrateResults cs).has_diagram
        = (cs.any fun r => decide (r.type = FigureType.diagram))) ∧
    ((integrateResults cs).has_figure
        = (cs.any fun r => (decide (r.type = FigureType.flowchart)
            || decide (r.type = FigureType.embedded_image)
            || decide (r.type = FigureType.diagram)))) := by
  unfold integrateResults
  dsimp only
  obtain ⟨h1, h2, h3, h4, h5⟩ := foldl_flags cs (initIntegrated, 0, none)
  cases hm : (cs.foldl integrateStep (initIntegrated, 0, none)).2.2 with
  | none =>
    dsimp only
    rw [h1, h2, h3, h4, h5]
    simp [initIntegrated]
  | some p =>
    dsimp only
    rw [h1, h2, h3, h4, h5]
    simp [initIntegrated]

/-- `List.any` is invariant under permutation. -/
lemma any_perm {α : Type _} {l1 l2 : List α} (h : List.Perm l1 l2)
    (p : α → Bool) : l1.any p = l2.any p := by
  cases ha : l1.any p <;> cases hb : l2.any p
  · rfl
  · rw [List.any_eq_true] at hb
    obtain ⟨x, hx, hpx⟩ := hb
    have hc := List.any_eq_true.mpr ⟨x, h.mem_iff.mpr hx, hpx⟩
    rw [ha] at hc
    cases hc
  · rw [List.any_eq_true] at ha
    obtain ⟨x, hx, hpx⟩ := ha
    have hc := List.any_eq_true.mpr ⟨x, h.mem_iff.mp hx, hpx⟩
    rw [hb] at hc
    cases hc
  · rfl

/-- A list containing a weakly-dominant candidate splits at the first
non-dominated position, which carries the dominant candidate's type,
confidence and complexity. -/
lemma exists_first_split (c : DetectionResult) :
    ∀ cs : List DetectionResult, c ∈ cs →
    (∀ x ∈ cs, x = c ∨ x.confidence < c.confidence) →
    ∃ pre d post, cs = pre ++ d :: post ∧ d.type = c.type ∧
      d.confidence = c.confidence ∧ d.complexity = c.complexity ∧
      (∀ p ∈ pre, p.confidence < c.confidence) ∧
      (∀ q ∈ post, q.confidence ≤ c.confidence) := by
  intro cs
  induction cs with
  | nil => intro h; cases h
  | cons a rest ih =>
    intro hmem hmax
    by_cases ha : a.confidence < c.confidence
    · have hmem2 : c ∈ rest := by
        rcases List.mem_cons.mp hmem with h | h
        · exact absurd (h ▸ ha) (lt_irrefl _)
        · exact h
      obtain ⟨pre, d, post, h1, h2, h3, h4, h5, h6⟩ :=
        ih hmem2 (fun x hx => hmax x (List.mem_cons_of_mem a hx))
      refine ⟨a :: pre, d, post, by rw [h1]; rfl, h2, h3, h4, ?_, h6⟩
      intro p hp
      rcases List.mem_cons.mp hp with h | h
      · exact h ▸ ha
      · exact h5 p h
    · have hac : a = c :=
        (hmax a (List.mem_cons_self a rest)).resolve_right ha
      refine ⟨[], a, rest, rfl, by rw [hac], by rw [hac], by rw [hac],
        fun p hp => absurd hp (List.not_mem_nil p), ?_⟩
      intro q hq
      rcases hmax q (List.mem_cons_of_mem a hq) with h | h
      · exact le_of_eq (by rw [h])
      · exact le_of_lt h

/-- The merge inner scan is the identity when the seed overlaps no
unconsumed region of the suffix. -/
lemma mergeScan_no_overlap (r1 : FigureRegion) :
    ∀ (rest : List (ℕ × FigureRegion)) (mb : BBox) (mt : RType)
      (used : List ℕ),
      (∀ p ∈ rest, p.1 ∉ used → bboxesOverlap r1.bbox p.2.bbox = false) →
      mergeScan r1 rest mb mt used = (mb, mt, used) := by
  intro rest
  induction rest with
  | nil => intro mb mt used _; rfl
  | cons p rest ih =>
    intro mb mt used h
    obtain ⟨j, r2⟩ := p
    unfold mergeScan
    by_cases hj : j ∈ used
    · simp only [hj, if_true]
      exact ih mb mt used fun q hq hqu => h q (List.mem_cons_of_mem _ hq) hqu
    · simp only [hj, if_false]
      have hov := h (j, r2) (List.mem_cons_self _ _) hj
      simp only [hov, Bool.false_eq_true, if_false]
      exact ih mb mt used fun q hq hqu => h q (List.mem_cons_of_mem _ hq) hqu

/-- The merge outer loop always produces positional indices (from `k` on)
and cleared captions, i.e. its output is a fixed point of `canonFrom`. -/
lemma mergeOuter_canon :
    ∀ (l : List (ℕ × FigureRegion)) (used : List ℕ) (k : ℕ),
      mergeOuter l used k = canonFrom k (mergeOuter l used k) := by
  intro l
  induction l with
  | nil => intro used k; rfl
  | cons p rest ih =>
    intro used k
    obtain ⟨i, r1⟩ := p
    unfold mergeOuter
    by_cases hi : i ∈ used
    · simp only [hi, if_true]
      exact ih used k
    · simp only [hi, if_false]
      unfold canonFrom
      refine congrArg₂ List.cons rfl ?_
      exact ih _ (k + 1)

/-- Membership in an `enumFrom` projects to membership in the list. -/
lemma snd_mem_of_mem_enumFrom {α : Type _} :
    ∀ (l : List α) (n : ℕ) (p : ℕ × α), p ∈ l.enumFrom n → p.2 ∈ l := by
  intro l
  induction l with
  | nil => intro n p h; cases h
  | cons a rest ih =>
    intro n p h
    rcases List.mem_cons.mp h with h1 | h1
    · rw [h1]
      exact List.mem_cons_self _ _
    · exact List.mem_cons_of_mem _ (ih (n + 1) p h1)

/-- On a pairwise non-overlapping region list the merge outer loop only
reindexes and clears captions. -/
lemma mergeOuter_disjoint :
    ∀ (L : List FigureRegion),
      L.Pairwise (fun a b => bboxesOverlap a.bbox b.bbox = false) →
      ∀ k, mergeOuter (L.enumFrom k) [] k = canonFrom k L := by
  intro L
  induction L with
  | nil => intro _ k; rfl
  | cons r rest ih =>
    intro hp k
    have hhead : ∀ b ∈ rest, bboxesOverlap r.bbox b.bbox = false :=
      fun b hb => List.rel_of_pairwise_cons hp hb
    have htail := List.Pairwise.of_cons hp
    show mergeOuter ((k, r) :: rest.enumFrom (k + 1)) [] k
      = canonFrom k (r :: rest)
    unfold mergeOuter
    have hk : (k : ℕ) ∉ ([] : List ℕ) := List.not_mem_nil k
    simp only [hk, if_false]
    rw [mergeScan_no_overlap r (rest.enumFrom (k + 1)) r.bbox r.type []
      (fun p hp2 _ => hhead p.2 (snd_mem_of_mem_enumFrom rest (k + 1) p hp2))]
    unfold canonFrom
    exact congrArg₂ List.cons rfl (ih htail (k + 1))

/-- The coordinate bounds encoded by a successful overlap test. -/
lemma overlap_bounds {a b : BBox} (hov : bboxesOverlap a b = true) :
    b.x0 ≤ a.x1 ∧ a.x0 ≤ b.x1 ∧ b.y0 ≤ a.y1 ∧ a.y0 ≤ b.y1 := by
  unfold bboxesOverlap at hov
  simp only [Bool.not_eq_eq_eq_not, Bool.not_true, Bool.or_eq_false_iff,
    decide_eq_false_iff_not, not_lt] at hov
  exact ⟨hov.1.1.1, hov.1.1.2, hov.1.2, hov.2⟩

/-- Absorbing a bbox that overlaps the seed preserves the sandwich
invariant. -/
lemma accInv_merge {base acc b : BBox} (hov : bboxesOverlap base b = true)
    (h : accInv base acc) : accInv base (mergeBboxes acc b) := by
  obtain ⟨h1, h2, h3, h4⟩ := overlap_bounds hov
  rcases h with rfl | ⟨i1, i2, i3, i4, i5, i6, i7, i8⟩
  · right
    refine ⟨min_le_left _ _, le_trans (min_le_right _ _) h1,
      le_trans h2 (le_max_right _ _), le_max_left _ _,
      min_le_left _ _, le_trans (min_le_right _ _) h3,
      le_trans h4 (le_max_right _ _), le_max_left _ _⟩
  · right
    refine ⟨le_trans (min_le_left _ _) i1, le_trans (min_le_left _ _) i2,
      le_trans i3 (le_max_left _ _), le_trans i4 (le_max_left _ _),
      le_trans (min_le_left _ _) i5, le_trans (min_le_left _ _) i6,
      le_trans i7 (le_max_left _ _), le_trans i8 (le_max_left _ _)⟩

/-- The sandwich invariant forces the absorbed bbox's area to dominate the
seed's area. -/
lemma accInv_area {base acc : BBox} (h : accInv base acc) :
    bboxArea base ≤ bboxArea acc := by
  rcases h with rfl | ⟨i1, i2, i3, i4, i5, i6, i7, i8⟩
  · exact le_refl _
  · unfold bboxArea
    have hw : (0:ℚ) ≤ acc.x1 - acc.x0 := by linarith
    have hh : (0:ℚ) ≤ acc.y1 - acc.y0 := by linarith
    have hwb : |base.x1 - base.x0| ≤ acc.x1 - acc.x0 := by
      rw [abs_le]
      constructor <;> linarith
    have hhb : |base.y1 - base.y0| ≤ acc.y1 - acc.y0 := by
      rw [abs_le]
      constructor <;> linarith
    calc |(base.x1 - base.x0) * (base.y1 - base.y0)|
        = |base.x1 - base.x0| * |base.y1 - base.y0| := abs_mul _ _
      _ ≤ (acc.x1 - acc.x0) * (acc.y1 - acc.y0) :=
          mul_le_mul hwb hhb (abs_nonneg _) hw
      _ = |(acc.x1 - acc.x0) * (acc.y1 - acc.y0)| :=
          (abs_of_nonneg (mul_nonneg hw hh)).symm

/-- The merged bbox of the inner scan keeps the sandwich invariant
relative to the seed. -/
lemma mergeScan_bbox_inv (r1 : FigureRegion) :
    ∀ (rest : List (ℕ × FigureRegion)) (mb : BBox) (mt : RType)
      (used : List ℕ), accInv r1.bbox mb →
      accInv r1.bbox (mergeScan r1 rest mb mt used).1 := by
  intro rest
  induction rest with
  | nil => intro mb mt used h; exact h
  | cons p rest ih =>
    intro mb mt used h
    obtain ⟨j, r2⟩ := p
    unfold mergeScan
    by_cases hj : j ∈ used
    · simp only [hj, if_true]
      exact ih mb mt used h
    · simp only [hj, if_false]
      cases hov : bboxesOverlap r1.bbox r2.bbox
      · simp only [Bool.false_eq_true, if_false]
        exact ih mb mt used h
      · simp only [if_true]
        exact ih _ _ _ (accInv_merge hov h)

/-- The type produced by the inner scan is the initial type or the type of
some scanned region whose confidence strictly exceeds the seed's. -/
lemma mergeScan_type (r1 : FigureRegion) :
    ∀ (rest : List (ℕ × FigureRegion)) (mb : BBox) (mt : RType)
      (used : List ℕ),
      (mergeScan r1 rest mb mt used).2.1 = mt ∨
      ∃ p ∈ rest, r1.confidence < p.2.confidence ∧
        (mergeScan r1 rest mb mt used).2.1 = p.2.type := by
  intro rest
  induction rest with
  | nil => intro mb mt used; exact Or.inl rfl
  | cons p rest ih =>
    intro mb mt used
    obtain ⟨j, r2⟩ := p
    unfold mergeScan
    by_cases hj : j ∈ used
    · simp only [hj, if_true]
      rcases ih mb mt used with h | ⟨q, hq, hc, ht⟩
      · exact Or.inl h
      · exact Or.inr ⟨q, List.mem_cons_of_mem _ hq, hc, ht⟩
    · simp only [hj, if_false]
      cases hov : bboxesOverlap r1.bbox r2.bbox
      · simp only [Bool.false_eq_true, if_false]
        rcases ih mb mt used with h | ⟨q, hq, hc, ht⟩
        · exact Or.inl h
        · exact Or.inr ⟨q, List.mem_cons_of_mem _ hq, hc, ht⟩
      · simp only [if_true]
        by_cases hcf : r1.confidence < r2.confidence
        · simp only [hcf, if_true]
          rcases ih (mergeBboxes mb r2.bbox) r2.type (j :: used) with h |
              ⟨q, hq, hc, ht⟩
          · exact Or.inr ⟨(j, r2), List.mem_cons_self _ _, hcf, h⟩
          · exact Or.inr ⟨q, List.mem_cons_of_mem _ hq, hc, ht⟩
        · simp only [hcf, if_false]
          rcases ih (mergeBboxes mb r2.bbox) mt (j :: used) with h |
              ⟨q, hq, hc, ht⟩
          · exact Or.inl h
          · exact Or.inr ⟨q, List.mem_cons_of_mem _ hq, hc, ht⟩

/-- Every output of the merge outer loop stems from a seed entry of the
input list: it keeps the seed's confidence and page number, its bbox
sandwiches the seed's bbox, its caption is cleared, and its type is the
seed's unless some scanned region with strictly higher confidence than the
seed supplied it. -/
lemma mergeOuter_mem :
    ∀ (l : List (ℕ × FigureRegion)) (used : List ℕ) (k : ℕ)
      (out : FigureRegion), out ∈ mergeOuter l used k →
      ∃ p ∈ l, out.confidence = p.2.confidence ∧
        out.page_num = p.2.page_num ∧ accInv p.2.bbox out.bbox ∧
        out.caption = none ∧
        (out.type = p.2.type ∨ ∃ q ∈ l, p.2.confidence < q.2.confidence ∧
          out.type = q.2.type) := by
  intro l
  induction l with
  | nil => intro used k out h; cases h
  | cons p rest ih =>
    intro used k out h
    obtain ⟨i, r1⟩ := p
    unfold mergeOuter at h
    by_cases hi : i ∈ used
    · simp only [hi, if_true] at h
      obtain ⟨q, hq, h1, h2, h3, h4, h5⟩ := ih used k out h
      refine ⟨q, List.mem_cons_of_mem _ hq, h1, h2, h3, h4, ?_⟩
      rcases h5 with h5 | ⟨q2, hq2, hc2, ht2⟩
      · exact Or.inl h5
      · exact Or.inr ⟨q2, List.mem_cons_of_mem _ hq2, hc2, ht2⟩
    · simp only [hi, if_false] at h
      rcases List.mem_cons.mp h with rfl | htail
      · refine ⟨(i, r1), List.mem_cons_self _ _, rfl, rfl, ?_, rfl, ?_⟩
        · exact mergeScan_bbox_inv r1 rest r1.bbox r1.type used (Or.inl rfl)
        · rcases mergeScan_type r1 rest r1.bbox r1.type used with h1 |
              ⟨q, hq, hc, ht⟩
          · exact Or.inl h1
          · exact Or.inr ⟨q, List.mem_cons_of_mem _ hq, hc, ht⟩
      · obtain ⟨q, hq, h1, h2, h3, h4, h5⟩ := ih _ (k + 1) out htail
        refine ⟨q, List.mem_cons_of_mem _ hq, h1, h2, h3, h4, ?_⟩
        rcases h5 with h5 | ⟨q2, hq2, hc2, ht2⟩
        · exact Or.inl h5
        · exact Or.inr ⟨q2, List.mem_cons_of_mem _ hq2, hc2, ht2⟩

/-- The seed decomposition of every merged output region, lifted to
`mergeOverlappingRegions` (covering its length-guard case). -/
lemma mergeOverlapping_mem (regions : List FigureRegion)
    (out : FigureRegion) (h : out ∈ mergeOverlappingRegions regions) :
    ∃ seed ∈ regions, out.confidence = seed.confidence ∧
      accInv seed.bbox out.bbox ∧
      (out.type = seed.type ∨ ∃ other ∈ regions,
        seed.confidence < other.confidence ∧ out.type = other.type) := by
  unfold mergeOverlappingRegions at h
  split_ifs at h with h1
  · exact ⟨out, h, rfl, Or.inl rfl, Or.inl rfl⟩
  · obtain ⟨p, hp, e1, _, e3, _, e5⟩ :=
      mergeOuter_mem regions.enum [] 0 out h
    refine ⟨p.2, snd_mem_of_mem_enumFrom regions 0 p hp, e1, e3, ?_⟩
    rcases e5 with e5 | ⟨q, hq, hc, ht⟩
    · exact Or.inl e5
    · exact Or.inr ⟨q.2, snd_mem_of_mem_enumFrom regions 0 q hq, hc, ht⟩

/-- Every region entering the merge stage of `detectFigureRegions` has
already passed the minimum-area filter of its source. -/
lemma detect_regions_premerge (cfg : RegionConfig)
    (tablesQ : Option (List TableG)) (imagesQ : Option (List ImgIn))
    (drawings : List Drawing) (pageNum : ℕ) :
    ∀ x, x ∈
      ((match tablesQ with
        | none => []
        | some ts => ts.enum.filterMap fun p =>
            let r : FigureRegion :=
              { bbox := p.2.bbox, type := RType.table, confidence := 9/10,
                page_num := pageNum, index := p.1 }
            if cfg.min_figure_area < r.area then some r else none) ++
       (match imagesQ with
        | none => []
        | some ims => ims.enum.filterMap fun p =>
            match p.2.bboxQ with
            | none => none
            | some b =>
              let r : FigureRegion :=
                { bbox := b, type := RType.image, confidence := 95/100,
                  page_num := pageNum, index := p.1 }
              if cfg.min_figure_area < r.area then some r else none) ++
       ((detectFigureClusters cfg drawings).enum.filterMap fun p =>
          let r : FigureRegion :=
            { bbox := p.2, type := RType.figure, confidence := 7/10,
              page_num := pageNum, index := p.1 }
          if cfg.min_figure_area < r.area then some r else none) :
        List FigureRegion) →
      cfg.min_figure_area < x.area := by
  intro x hx
  rcases List.mem_append.mp hx with hx1 | hx2
  · rcases List.mem_append.mp hx1 with hxa | hxb
    · match tablesQ with
      | none => cases hxa
      | some ts =>
        obtain ⟨a, _, hfa⟩ := List.mem_filterMap.mp hxa
        dsimp only at hfa
        split_ifs at hfa with harea
        · injection hfa with hfa
          exact hfa ▸ harea
    · match imagesQ with
      | none => cases hxb
      | some ims =>
        obtain ⟨a, _, hfa⟩ := List.mem_filterMap.mp hxb
        match hb : a.2.bboxQ with
        | none => rw [hb] at hfa; cases hfa
        | some b =>
          rw [hb] at hfa
          dsimp only at hfa
          split_ifs at hfa with harea
          · injection hfa with hfa
            exact hfa ▸ harea
  · obtain ⟨a, _, hfa⟩ := List.mem_filterMap.mp hx2
    dsimp only at hfa
    split_ifs at hfa with harea
    · injection hfa with hfa
      exact hfa ▸ harea

/-! ## Claim theorems -/

/-- Claim C1: the processing method chosen by
`HybridProcessor.analyze_page_content` is exactly the decision table over
(embedded images present, tables-or-figures present): text_only when
neither, extract_images for embedded images only, full_page for
tables/figures only, hybrid for both. -/
theorem hybrid_method_decision_table (images : List ImgIn)
    (tablesQ : Option (List TableG)) (text : List Char) (pageNum : ℕ) :
    (analyzePageContent images tablesQ text pageNum).method =
      methodTable
        (!(analyzePageContent images tablesQ text pageNum).embedded_images.isEmpty)
        ((analyzePageContent images tablesQ text pageNum).has_tables ||
          (analyzePageContent images tablesQ text pageNum).has_figures) := by
  unfold analyzePageContent
  cases hE : detectEmbeddedImages images pageNum <;>
  cases hT : (match tablesQ with
    | some ts => decide (0 < ts.length)
    | none => false) <;>
  cases hF : hasFigureKeywordText text <;>
  simp [methodTable]

/-- Claim C2 (counterexample): a page whose text is only the reference
phrase 図1-1の通り, with no embedded images and no tables, is classified by
`HybridProcessor.analyze_page_content` with has_figures = true (from the
keyword match alone) and method full_page — not has_figures = false and
text_only as the claim states. -/
theorem reference_only_hybrid_counterexample :
    (analyzePageContent [] (some []) (("図1-1の通り").toList) 0).method
        = "full_page" ∧
    (analyzePageContent [] (some []) (("図1-1の通り").toList) 0).has_figures
        = true := by
  constructor <;> with_unfolding_all decide

/-- Claim C2 (amended): in the PracticalPageAnalyzer, a figure-number text
match with no visual evidence (no shape primitives, no tables, no
significant images — has_visual_element false) is downgraded: the page is
classified PURE_TEXT and the selected processing method is text_only.
(The HybridProcessor path, by contrast, treats the keyword match itself as
figure evidence — see the counterexample.) -/
theorem reference_only_practical_text_only (cfg : PracticalConfig)
    (page : PracticalPage)
    (hvis : (detailedAnalysis page).has_visual_element = false)
    (hfn : (quickScreening cfg page).features.has_figure_number = true)
    (hskip : (quickScreening cfg page).skip = false) :
    (analyzePage cfg page).processing_method = ProcessingMethod.text_only ∧
    (analyzePage cfg page).page_type = PageType.pure_text := by
  unfold analyzePage
  dsimp only
  rw [hskip]
  by_cases hp : (quickScreening cfg page).is_pure_text = true
  · simp [hp]
  · simp only [Bool.not_eq_true] at hp
    simp only [hp, Bool.false_eq_true, if_false]
    unfold determineProcessing
    dsimp only
    rw [hvis, hfn]
    simp

/-- Witness for the amended claim C2, at a concrete page whose text is
only the reference phrase. -/
theorem reference_only_practical_text_only_witness :
    (analyzePage defaultPracticalConfig
      { text := ("図1-1の通り").toList, pageW := 100, pageH := 100,
        blocks := [], images := [], tablesQ := some [],
        drawings := [] }).processing_method = ProcessingMethod.text_only ∧
    (analyzePage defaultPracticalConfig
      { text := ("図1-1の通り").toList, pageW := 100, pageH := 100,
        blocks := [], images := [], tablesQ := some [],
        drawings := [] }).page_type = PageType.pure_text :=
  reference_only_practical_text_only defaultPracticalConfig _
    (by with_unfolding_all decide) (by with_unfolding_all decide)
    (by with_unfolding_all decide)

/-- Claim C3: fusion is order-independent.  (1) The boolean flags of
`integrateResults` are invariant under any permutation of the candidate
list.  (2) The candidate that strictly dominates everything collected
before it and is not strictly exceeded later becomes primary and supplies
primary_type, confidence and complexity — i.e. ties are broken in favour
of the earlier candidate in the collection (registration) order.  (3) For
a candidate of strictly highest confidence, primary_type, confidence and
complexity are the same for every permutation of the candidate list. -/
theorem fusion_order_independent :
    (∀ (cs cs2 : List DetectionResult), List.Perm cs cs2 →
      ((integrateResults cs).has_table = (integrateResults cs2).has_table ∧
       (integrateResults cs).has_flowchart
          = (integrateResults cs2).has_flowchart ∧
       (integrateResults cs).has_embedded_image
          = (integrateResults cs2).has_embedded_image ∧
       (integrateResults cs).has_diagram
          = (integrateResults cs2).has_diagram ∧
       (integrateResults cs).has_figure
          = (integrateResults cs2).has_figure)) ∧
    (∀ (pre post : List DetectionResult) (c : DetectionResult),
      0 < c.confidence →
      (∀ p ∈ pre, p.confidence < c.confidence) →
      (∀ q ∈ post, q.confidence ≤ c.confidence) →
      (integrateResults (pre ++ c :: post)).primary_type = c.type ∧
      (integrateResults (pre ++ c :: post)).confidence = c.confidence ∧
      (integrateResults (pre ++ c :: post)).complexity = c.complexity) ∧
    (∀ (cs cs2 : List DetectionResult) (c : DetectionResult),
      List.Perm cs cs2 → c ∈ cs → 0 < c.confidence →
      (∀ x ∈ cs, x = c ∨ x.confidence < c.confidence) →
      ((integrateResults cs).primary_type = c.type ∧
       (integrateResults cs).primary_type
          = (integrateResults cs2).primary_type ∧
       (integrateResults cs).confidence = (integrateResults cs2).confidence ∧
       (integrateResults cs).complexity
          = (integrateResults cs2).complexity)) := by
  have hfields : ∀ (cs : List DetectionResult) (c : DetectionResult),
      c ∈ cs → 0 < c.confidence →
      (∀ x ∈ cs, x = c ∨ x.confidence < c.confidence) →
      (integrateResults cs).primary_type = c.type ∧
      (integrateResults cs).confidence = c.confidence ∧
      (integrateResults cs).complexity = c.complexity := by
    intro cs c hmem hc hmax
    obtain ⟨pre, d, post, h1, h2, h3, h4, h5, h6⟩ :=
      exists_first_split c cs hmem hmax
    subst h1
    have := integrate_first_max pre post d (h3 ▸ hc)
      (fun p hp => h3 ▸ h5 p hp) (fun q hq => h3 ▸ h6 q hq)
    exact ⟨this.1.trans h2, this.2.1.trans h3, this.2.2.trans h4⟩
  refine ⟨?_, integrate_first_max, ?_⟩
  · intro cs cs2 hperm
    obtain ⟨a1, a2, a3, a4, a5⟩ := integrateResults_flags cs
    obtain ⟨b1, b2, b3, b4, b5⟩ := integrateResults_flags cs2
    exact ⟨a1.trans ((any_perm hperm _).trans b1.symm),
      a2.trans ((any_perm hperm _).trans b2.symm),
      a3.trans ((any_perm hperm _).trans b3.symm),
      a4.trans ((any_perm hperm _).trans b4.symm),
      a5.trans ((any_perm hperm _).trans b5.symm)⟩
  · intro cs cs2 c hperm hmem hc hmax
    have r1 := hfields cs c hmem hc hmax
    have r2 := hfields cs2 c (hperm.mem_iff.mp hmem) hc
      (fun x hx => hmax x (hperm.mem_iff.mpr hx))
    exact ⟨r1.1, r1.1.trans r2.1.symm, r1.2.1.trans r2.2.1.symm,
      r1.2.2.trans r2.2.2.symm⟩

/-- Witness for claim C3: a single table candidate of confidence 0.9
becomes the primary result of fusion. -/
theorem fusion_order_independent_witness :
    (integrateResults
      [⟨FigureType.table, 9/10, [], [], Cx.simple⟩]).primary_type
        = FigureType.table ∧
    (integrateResults
      [⟨FigureType.table, 9/10, [], [], Cx.simple⟩]).confidence = 9/10 ∧
    (integrateResults
      [⟨FigureType.table, 9/10, [], [], Cx.simple⟩]).complexity
        = Cx.simple :=
  fusion_order_independent.2.1 [] [] ⟨FigureType.table, 9/10, [], [], Cx.simple⟩
    (by norm_num) (by simp) (by simp)

/-- Claim C4: the flowchart detector estimates arrows as the line-drawing
count integer-divided by 3, fires iff at least 3 rectangles and at least
the configured arrow minimum are present, and when it fires its confidence
is min(0.6 + 0.1·arrows + 0.05·keywords, 1) and its complexity is complex
exactly when the arrow estimate exceeds 5, else medium. -/
theorem flowchart_detector_spec (cfg : UnifiedConfig) (pd : PageCache) :
    (detectArrows pd.drawings =
      (pd.drawings.filter fun d => d.dtype = DKind.line).length / 3) ∧
    ((flowchartDetect cfg pd).isSome = true ↔
      (3 ≤ (pd.drawings.filter fun d => d.dtype = DKind.rect).length ∧
        cfg.min_arrows_for_flowchart ≤ detectArrows pd.drawings)) ∧
    (∀ r, flowchartDetect cfg pd = some r →
      r.type = FigureType.flowchart ∧
      r.confidence =
        min (6/10 + (1/10) * (detectArrows pd.drawings : ℚ) +
          (5/100) * (((flowchartKeywords.filter fun kw =>
            containsSeq kw pd.text).length : ℚ))) 1 ∧
      r.complexity =
        (if 5 < detectArrows pd.drawings then Cx.complex else Cx.medium)) := by
  refine ⟨rfl, ?_, ?_⟩
  · unfold flowchartDetect
    dsimp only
    split_ifs with h <;> simp [h]
  · intro r hr
    unfold flowchartDetect at hr
    dsimp only at hr
    split_ifs at hr with h h2
    · simp only [Option.some.injEq] at hr
      subst hr
      exact ⟨rfl, by ring_nf, by simp [h2]⟩
    · simp only [Option.some.injEq] at hr
      subst hr
      exact ⟨rfl, by ring_nf, by simp [h2]⟩

/-- Witness for claim C4: a page cache with 3 rectangle drawings and 6
line drawings (2 estimated arrows) makes the flowchart detector fire. -/
theorem flowchart_detector_spec_witness :
    (flowchartDetect {}
      { text := [], drawings := List.replicate 3 ⟨DKind.rect, []⟩ ++
          List.replicate 6 ⟨DKind.line, []⟩, tables := [],
        images := [] }).isSome = true :=
  (flowchart_detector_spec {} _).2.1.mpr (by with_unfolding_all decide)

/-- Claim C5: the quick screening classifies a page as pure text (the
text_only candidate, emitted with confidence 0.9, inside the promised
0.9–0.95 band) iff the text density exceeds the configured threshold, no
oversized image is present, no forced keyword is present and no
positionally-validated actual figure caption is present; and a
figure-number match counts as an actual caption exactly when no
reference-phrase template matches the text and the match is positionally
validated (line start, own line, or indented). -/
theorem quick_screening_gate (cfg : PracticalConfig) (page : PracticalPage)
    (hskip : ∀ p ∈ cfg.skip_page_patterns,
      containsSeq p (page.text.take 200) = false) :
    ((quickScreening cfg page).is_pure_text = true ↔
      (cfg.quick_text_density_threshold
          < (quickScreening cfg page).features.text_density ∧
       (quickScreening cfg page).features.large_images_count = 0 ∧
       (quickScreening cfg page).features.has_force_keywords = false ∧
       (quickScreening cfg page).features.actual_figure = false)) ∧
    ((quickScreening cfg page).is_pure_text = true →
      (quickScreening cfg page).confidence = 9/10) ∧
    ((quickScreening cfg page).features.actual_figure = true ↔
      ((quickScreening cfg page).features.has_figure_number = true ∧
       (quickScreening cfg page).features.has_figure_reference = false ∧
       positionalCaptionMatch cfg.figure_number_patterns page.text
          = true)) := by
  unfold quickScreening
  have hs : (cfg.skip_page_patterns.any fun p =>
      containsSeq p (page.text.take 200)) = false := by
    rw [List.any_eq_false]
    intro p hp
    simp [hskip p hp]
  simp only [hs, Bool.false_eq_true, if_false]
  refine ⟨?_, ?_, ?_⟩
  · simp only [Bool.and_eq_true, decide_eq_true_eq, Bool.not_eq_true']
    tauto
  · intro h
    simp only [h, if_true]
  · cases hfn : anySearch cfg.figure_number_patterns page.text <;>
    cases hfr : anySearch referencePatterns page.text <;>
    simp [hfn, hfr]

/-- Witness for claim C5: a dense all-text page (density 0.9, no images,
no keywords) passes the pure-text gate. -/
theorem quick_screening_gate_witness :
    (quickScreening defaultPracticalConfig
      { text := ("こんにちは").toList, pageW := 100, pageH := 100,
        blocks := [{ bbox := ⟨0, 0, 100, 90⟩, btype := 0 }], images := [],
        tablesQ := none, drawings := [] }).is_pure_text = true :=
  (quick_screening_gate defaultPracticalConfig _
    (fun p hp => absurd hp (List.not_mem_nil p))).1.mpr
    (by with_unfolding_all decide)

/-- Claim C6: figure clustering skips pages with fewer than 3 drawings
(returning the empty cluster list) and otherwise is exactly the
single-pass greedy walk over the shape bboxes in discovery order: the
running cluster absorbs the next shape when the centre distance is within
the threshold, and otherwise is closed (kept only when its area exceeds
the configured minimum) while the shape seeds a new cluster. -/
theorem figure_clustering_greedy_walk (cfg : RegionConfig)
    (drawings : List Drawing) :
    detectFigureClusters cfg drawings =
      (if drawings.length < 3 then []
       else clusterWalkStart cfg (drawings.filterMap drawingShapeBbox)) := by
  unfold detectFigureClusters clusterWalkStart
  split_ifs with h
  · rfl
  · cases hm : drawings.filterMap drawingShapeBbox with
    | nil => rfl
    | cons b rest =>
      dsimp only
      rw [clusterLoop_eq_walk, List.nil_append]

/-- Claim C7 (counterexample): region merging is not idempotent.  With
regions A = (0,0,1,1), B = (2,2,3,3) and C = (0,0,3,3), the first pass
merges C into A (giving bbox (0,0,3,3)) and keeps B separate, but the two
outputs overlap, so a second pass merges them further. -/
theorem merge_regions_not_idempotent :
    mergeOverlappingRegions (mergeOverlappingRegions
      [⟨⟨0,0,1,1⟩, RType.table, 9/10, 0, 0, none⟩,
       ⟨⟨2,2,3,3⟩, RType.table, 9/10, 0, 1, none⟩,
       ⟨⟨0,0,3,3⟩, RType.image, 95/100, 0, 2, none⟩])
      ≠ mergeOverlappingRegions
      [⟨⟨0,0,1,1⟩, RType.table, 9/10, 0, 0, none⟩,
       ⟨⟨2,2,3,3⟩, RType.table, 9/10, 0, 1, none⟩,
       ⟨⟨0,0,3,3⟩, RType.image, 95/100, 0, 2, none⟩] := by
  with_unfolding_all decide

/-- Claim C7 (amended): the merge pass is idempotent whenever its first
output is pairwise non-overlapping (in general a second application can
merge regions whose union bboxes came to overlap). -/
theorem merge_regions_idempotent_of_disjoint (regions : List FigureRegion)
    (h : (mergeOverlappingRegions regions).Pairwise
      (fun a b => bboxesOverlap a.bbox b.bbox = false)) :
    mergeOverlappingRegions (mergeOverlappingRegions regions)
      = mergeOverlappingRegions regions := by
  by_cases h1 : regions.length ≤ 1
  · have e : mergeOverlappingRegions regions = regions := by
      unfold mergeOverlappingRegions
      rw [if_pos h1]
    rw [e]
    exact e
  · have hM : mergeOverlappingRegions regions
        = mergeOuter regions.enum [] 0 := by
      unfold mergeOverlappingRegions
      rw [if_neg h1]
    by_cases h2 : (mergeOverlappingRegions regions).length ≤ 1
    · generalize mergeOverlappingRegions regions = M at h2 ⊢
      unfold mergeOverlappingRegions
      rw [if_pos h2]
    · generalize mergeOverlappingRegions regions = M at h h2 hM ⊢
      unfold mergeOverlappingRegions
      rw [if_neg h2]
      rw [show M.enum = M.enumFrom 0 from rfl]
      rw [mergeOuter_disjoint M h 0]
      rw [hM]
      exact (mergeOuter_canon regions.enum [] 0).symm

/-- Witness for the amended claim C7: two disjoint regions merge to
themselves, and a second pass changes nothing. -/
theorem merge_regions_idempotent_of_disjoint_witness :
    mergeOverlappingRegions (mergeOverlappingRegions
      [⟨⟨0,0,1,1⟩, RType.table, 9/10, 0, 0, none⟩,
       ⟨⟨10,10,11,11⟩, RType.image, 95/100, 0, 1, none⟩])
      = mergeOverlappingRegions
      [⟨⟨0,0,1,1⟩, RType.table, 9/10, 0, 0, none⟩,
       ⟨⟨10,10,11,11⟩, RType.image, 95/100, 0, 1, none⟩] :=
  merge_regions_idempotent_of_disjoint _ (by with_unfolding_all decide)

/-- Claim C8 (counterexample): `HybridProcessor._detect_embedded_images`
applies no area filter — an image with pixel dimensions 200×200 but a page
bbox of only (0,0,10,10) is retained as a FigureRegion of area 100, below
the configured minimum figure area of 5000. -/
theorem embedded_image_small_area_counterexample :
    ∃ r ∈ detectEmbeddedImages
      [{ extractQ := some (200, 200), bboxQ := some ⟨0, 0, 10, 10⟩,
         pixQ := none }] 0,
      ¬ defaultRegionConfig.min_figure_area < r.area := by
  with_unfolding_all decide

/-- Claim C8 (amended): every FigureRegion in the output of
`detect_figure_regions` (table regions, embedded-image regions, figure
clusters and the merged survivors) has area strictly above the configured
minimum figure area, hence strictly positive area for a nonnegative
minimum.  (The embedded-image regions of `HybridProcessor`'s separate
`_detect_embedded_images` are filtered only by pixel dimensions and may
have arbitrarily small area — see the counterexample.) -/
theorem detect_regions_area_invariant (cfg : RegionConfig)
    (captionOf : BBox → Option String) (tablesQ : Option (List TableG))
    (imagesQ : Option (List ImgIn)) (drawings : List Drawing)
    (pageNum : ℕ) (r : FigureRegion)
    (hr : r ∈ detectFigureRegions cfg captionOf tablesQ imagesQ drawings
      pageNum) :
    cfg.min_figure_area < r.area ∧
      (0 ≤ cfg.min_figure_area → 0 < r.area) := by
  unfold detectFigureRegions at hr
  dsimp only at hr
  obtain ⟨m, hm, rfl⟩ := List.mem_map.mp hr
  obtain ⟨seed, hseed, _, hinv, _⟩ := mergeOverlapping_mem _ m hm
  have hseedarea := detect_regions_premerge cfg tablesQ imagesQ drawings
    pageNum seed hseed
  have harea : bboxArea seed.bbox ≤ bboxArea m.bbox := accInv_area hinv
  have hfinal : cfg.min_figure_area < bboxArea m.bbox :=
    lt_of_lt_of_le hseedarea harea
  exact ⟨hfinal, fun h0 => lt_of_le_of_lt h0 hfinal⟩

/-- Witness for the amended claim C8: a table of bbox (0,0,100,100)
(area 10000) survives region detection and satisfies the area bound. -/
theorem detect_regions_area_invariant_witness :
    defaultRegionConfig.min_figure_area <
      (⟨⟨0,0,100,100⟩, RType.table, 9/10, 0, 0, none⟩ :
        FigureRegion).area ∧
      (0 ≤ defaultRegionConfig.min_figure_area →
        0 < (⟨⟨0,0,100,100⟩, RType.table, 9/10, 0, 0, none⟩ :
          FigureRegion).area) :=
  detect_regions_area_invariant defaultRegionConfig (fun _ => none)
    (some [⟨⟨0,0,100,100⟩, none⟩]) (some []) [] 0 _
    (by with_unfolding_all decide)

/-- Claim C9 (counterexample): a failing text query aborts cache
construction even though every other signal is available —
`_build_page_cache` reads `page.get_text()` outside any `try`. -/
theorem build_cache_text_failure_counterexample :
    buildPageCache
      { textQ := Except.error (),
        drawingsQ := Except.ok [{ dtype := DKind.rect, items := [] }],
        tablesQ := Except.ok [], imagesQ := Except.ok [] }
      = Except.error () := rfl

/-- Claim C9 (amended): whenever the text query succeeds, cache
construction returns a cache; a failing drawings, tables or images query
degrades only that signal to the empty result, and per-image extraction
failures drop only the affected image.  (A failing text query, by
contrast, propagates — see the counterexample.) -/
theorem build_cache_degrades_non_text_signals (q : PageQueries)
    (t : List Char) (ht : q.textQ = Except.ok t) :
    ∃ c, buildPageCache q = Except.ok c ∧ c.text = t ∧
      (q.drawingsQ = Except.error () → c.drawings = []) ∧
      (∀ ds, q.drawingsQ = Except.ok ds → c.drawings = ds) ∧
      (q.tablesQ = Except.error () → c.tables = []) ∧
      (∀ ts, q.tablesQ = Except.ok ts → c.tables = ts) ∧
      (q.imagesQ = Except.error () → c.images = []) ∧
      (∀ l, q.imagesQ = Except.ok l → c.images = l.filterMap fun x =>
        match x with
        | Except.ok wh => some wh
        | Except.error _ => none) := by
  unfold buildPageCache
  rw [ht]
  refine ⟨_, rfl, rfl, ?_, ?_, ?_, ?_, ?_, ?_⟩
  · intro h; rw [h]
  · intro ds h; rw [h]
  · intro h; rw [h]
  · intro ts h; rw [h]
  · intro h; rw [h]
  · intro l h; rw [h]

/-- Witness for the amended claim C9: with a successful text query and
failing drawings/images queries, construction succeeds and the failed
signals degrade to empty. -/
theorem build_cache_degrades_non_text_signals_witness :
    ∃ c, buildPageCache
      { textQ := Except.ok (("abc").toList), drawingsQ := Except.error (),
        tablesQ := Except.ok [], imagesQ := Except.error () }
      = Except.ok c ∧ c.text = ("abc").toList ∧
      ((Except.error () : Except Unit (List Drawing))
          = Except.error () → c.drawings = []) ∧
      (∀ ds, (Except.error () : Except Unit (List Drawing))
          = Except.ok ds → c.drawings = ds) ∧
      ((Except.ok [] : Except Unit (List TableG))
          = Except.error () → c.tables = []) ∧
      (∀ ts, (Except.ok [] : Except Unit (List TableG))
          = Except.ok ts → c.tables = ts) ∧
      ((Except.error () : Except Unit (List (Except Unit (ℕ × ℕ))))
          = Except.error () → c.images = []) ∧
      (∀ l, (Except.error () : Except Unit (List (Except Unit (ℕ × ℕ))))
          = Except.ok l → c.images = l.filterMap fun x =>
        match x with
        | Except.ok wh => some wh
        | Except.error _ => none) :=
  build_cache_degrades_non_text_signals _ _ rfl

/-- Claim C10: every output region of the merge pass takes its confidence
from a seed region of the input (its earliest, first-scanned contributor);
its type equals the seed's type unless some contributor with confidence
strictly above the seed's supplied it — only the type field reflects that
higher-confidence contributor.  In particular the first output region of a
nonempty input always carries the first region's confidence. -/
theorem merge_confidence_from_first_contributor :
    (∀ (regions : List FigureRegion) (out : FigureRegion),
      out ∈ mergeOverlappingRegions regions →
      ∃ seed ∈ regions, out.confidence = seed.confidence ∧
        (out.type = seed.type ∨ ∃ other ∈ regions,
          seed.confidence < other.confidence ∧ out.type = other.type)) ∧
    (∀ (r1 : FigureRegion) (rest : List FigureRegion),
      (mergeOverlappingRegions (r1 :: rest)).head?.map
        (fun r => r.confidence) = some r1.confidence) := by
  constructor
  · intro regions out h
    obtain ⟨seed, hseed, h1, _, h3⟩ := mergeOverlapping_mem regions out h
    exact ⟨seed, hseed, h1, h3⟩
  · intro r1 rest
    unfold mergeOverlappingRegions
    split_ifs with h1
    · rfl
    · show ((mergeOuter ((0, r1) :: rest.enumFrom 1) [] 0).head?.map
        fun r => r.confidence) = some r1.confidence
      unfold mergeOuter
      have h0 : (0 : ℕ) ∉ ([] : List ℕ) := List.not_mem_nil 0
      simp only [h0, if_false]
      rfl

/-- Witness for claim C10: merging a 0.5-confidence table with an
overlapping 0.9-confidence image yields a region whose type (image) comes
from the higher-confidence contributor but whose confidence (0.5) is the
first region's. -/
theorem merge_confidence_from_first_contributor_witness :
    ∃ seed ∈ [(⟨⟨0,0,100,100⟩, RType.table, 1/2, 0, 0, none⟩ : FigureRegion),
               ⟨⟨50,50,150,150⟩, RType.image, 9/10, 0, 1, none⟩],
      (⟨⟨0,0,150,150⟩, RType.image, 1/2, 0, 0, none⟩ :
        FigureRegion).confidence = seed.confidence ∧
      ((⟨⟨0,0,150,150⟩, RType.image, 1/2, 0, 0, none⟩ :
          FigureRegion).type = seed.type ∨
        ∃ other ∈ [(⟨⟨0,0,100,100⟩, RType.table, 1/2, 0, 0, none⟩ :
            FigureRegion),
            ⟨⟨50,50,150,150⟩, RType.image, 9/10, 0, 1, none⟩],
          seed.confidence < other.confidence ∧
          (⟨⟨0,0,150,150⟩, RType.image, 1/2, 0, 0, none⟩ :
            FigureRegion).type = other.type) :=
  merge_confidence_from_first_contributor.1 _ _
    (by with_unfolding_all decide)

end RagOpt
